import Mathlib

/-!
Verification of the storage, aggregation and request-handler layer of the
green-heaven restaurant application (`app.py`).

The development shallowly embeds the relevant Python functions:

* a JSON value model with a serializer and parser standing for the
  `json.dumps` / `json.loads` pair used by `add_document` and `load_data`
  when translating the `items` field of an order to and from the remote
  (Supabase) schema;
* a local file-store model (`load_data_local`, `save_data_local`,
  `create_backup`, `cleanup_old_backups`, `load_backup_data`,
  `add_document_local`);
* the remote-first dispatchers (`load_data`, `save_data`, `add_document`)
  with the remote outcome made explicit as a value;
* the daily-totals aggregator (`update_daily_totals`) and the HTTP
  handlers `place_order`, `clear_all_orders`, `update_order_status`,
  `update_order_status_new`, `call_staff`, `clean_table`,
  `clear_table_alerts`, `dismiss_alert`, `resolve_alert`.

Machine floats of the source are modelled as rationals; timestamps, ids
and the current date are passed in as explicit arguments.
-/

namespace GreenHeaven

/-! ## JSON value model

Stands for the Python values handled by `json.dumps` / `json.loads` in
`app.py` (the `items` field translation, lines 524-526 and 276-280).
Numbers are modelled as integers; object keys and strings are character
lists. -/

inductive JVal : Type where
  | jnull : JVal
  | jbool (b : Bool) : JVal
  | jint (n : Int) : JVal
  | jstr (s : List Char) : JVal
  | jarr (l : List JVal) : JVal
  | jobj (o : List (List Char × JVal)) : JVal

mutual
/-- Structural size of a JSON value: one unit per node, independent of the
magnitude of integer leaves.  Used as the fuel bound of the parser. -/
def sizeJ : JVal → Nat
  | .jnull => 1
  | .jbool _ => 1
  | .jint _ => 1
  | .jstr _ => 1
  | .jarr l => sizeL l + 1
  | .jobj o => sizeO o + 1

/-- Size of a JSON array body. -/
def sizeL : List JVal → Nat
  | [] => 0
  | v :: vs => sizeJ v + sizeL vs + 1

/-- Size of a JSON object body. -/
def sizeO : List (List Char × JVal) → Nat
  | [] => 0
  | (_, v) :: kvs => sizeJ v + sizeO kvs + 1
end

theorem sizeJ_pos (v : JVal) : 1 ≤ sizeJ v := by
  cases v <;> simp [sizeJ]

/-! ## Serializer (model of `json.dumps` with its default separators) -/

/-- Decimal digits of a natural number, most significant first
(`json.dumps` output for a non-negative int). -/
def serNat (n : Nat) : List Char :=
  if n = 0 then ['0'] else (Nat.digits 10 n).reverse.map Nat.digitChar

/-- Decimal rendering of an integer. -/
def serInt (n : Int) : List Char :=
  if n < 0 then '-' :: serNat n.natAbs else serNat n.toNat

/-- String-body escaping: `json.dumps` escapes the quote and the
backslash; other characters are kept (modelling the content-preserving
escapes of the Python encoder). -/
def escChar (c : Char) : List Char :=
  if c = '"' ∨ c = '\\' then ['\\', c] else [c]

/-- Escape every character of a string body. -/
def escStr (s : List Char) : List Char :=
  s.foldr (fun c acc => escChar c ++ acc) []

mutual
/-- Serialize a JSON value, as `json.dumps` does with its default
separators `, ` and `: `. -/
def serVal : JVal → List Char
  | .jnull => ['n', 'u', 'l', 'l']
  | .jbool true => ['t', 'r', 'u', 'e']
  | .jbool false => ['f', 'a', 'l', 's', 'e']
  | .jint n => serInt n
  | .jstr s => '"' :: (escStr s ++ ['"'])
  | .jarr l => '[' :: (serArr l ++ [']'])
  | .jobj o => '{' :: (serObj o ++ ['}'])

/-- Serialize the elements of an array, separated by `, `. -/
def serArr : List JVal → List Char
  | [] => []
  | [v] => serVal v
  | v :: vs => serVal v ++ ',' :: ' ' :: serArr vs

/-- Serialize the members of an object, separated by `, `. -/
def serObj : List (List Char × JVal) → List Char
  | [] => []
  | [(k, v)] => serKV k v
  | (k, v) :: kvs => serKV k v ++ ',' :: ' ' :: serObj kvs

/-- Serialize one `key: value` member. -/
def serKV (k : List Char) (v : JVal) : List Char :=
  '"' :: (escStr k ++ '"' :: ':' :: ' ' :: serVal v)
end

/-! ## Parser (model of `json.loads`) -/

/-- JSON insignificant whitespace. -/
def isWsChar (c : Char) : Bool :=
  c = ' ' ∨ c = '\t' ∨ c = '\n' ∨ c = '\r'

/-- Skip insignificant whitespace. -/
def skipWs (s : List Char) : List Char :=
  s.dropWhile isWsChar

/-- Decode one escape character of a string body. -/
def unescChar (c : Char) : Option Char :=
  if c = '"' then some '"'
  else if c = '\\' then some '\\'
  else if c = '/' then some '/'
  else if c = 'n' then some '\n'
  else if c = 't' then some '\t'
  else if c = 'r' then some '\r'
  else none

/-- Parse a string body up to and including the closing quote, undoing
escapes; returns the decoded body and the rest of the input. -/
def parseStrBody : List Char → Option (List Char × List Char)
  | [] => none
  | c :: rest =>
    if c = '"' then some ([], rest)
    else if c = '\\' then
      match rest with
      | [] => none
      | e :: rest2 =>
        match unescChar e, parseStrBody rest2 with
        | some u, some (s, r) => some (u :: s, r)
        | _, _ => none
    else
      match parseStrBody rest with
      | some (s, r) => some (c :: s, r)
      | none => none

/-- Numeric value of a decimal digit character. -/
def digitVal (c : Char) : Nat := c.toNat - 48

/-- Decimal digits (most significant first) to a natural number. -/
def digsToNat (l : List Char) : Nat :=
  l.foldl (fun a c => 10 * a + digitVal c) 0

/-- Parse an integer literal (optional minus sign, then digits). -/
def parseNumber (s : List Char) : Option (JVal × List Char) :=
  match s with
  | [] => none
  | c :: rest =>
    if c = '-' then
      let ds := rest.takeWhile Char.isDigit
      if ds.isEmpty then none
      else some (.jint (-(digsToNat ds : Int)), rest.dropWhile Char.isDigit)
    else
      let ds := (c :: rest).takeWhile Char.isDigit
      if ds.isEmpty then none
      else some (.jint (digsToNat ds), (c :: rest).dropWhile Char.isDigit)

mutual
/-- Parse one JSON value.  The fuel argument bounds the nesting depth of
the recursion; `sizeJ` of the parsed value is always a sufficient fuel. -/
def parseVal : Nat → List Char → Option (JVal × List Char)
  | 0, _ => none
  | Nat.succ fuel, s =>
    match s with
    | [] => none
    | c :: rest =>
      if c = 'n' then
        match rest with
        | 'u' :: 'l' :: 'l' :: r => some (.jnull, r)
        | _ => none
      else if c = 't' then
        match rest with
        | 'r' :: 'u' :: 'e' :: r => some (.jbool true, r)
        | _ => none
      else if c = 'f' then
        match rest with
        | 'a' :: 'l' :: 's' :: 'e' :: r => some (.jbool false, r)
        | _ => none
      else if c = '"' then
        match parseStrBody rest with
        | some (str, r) => some (.jstr str, r)
        | none => none
      else if c = '[' then
        match skipWs rest with
        | [] => none
        | d :: r =>
          if d = ']' then some (.jarr [], r)
          else
            match parseElems fuel (d :: r) with
            | some (l, r2) => some (.jarr l, r2)
            | none => none
      else if c = '{' then
        match skipWs rest with
        | [] => none
        | d :: r =>
          if d = '}' then some (.jobj [], r)
          else
            match parseMembers fuel (d :: r) with
            | some (o, r2) => some (.jobj o, r2)
            | none => none
      else parseNumber (c :: rest)

/-- Parse the non-empty element list of an array, up to and including the
closing bracket. -/
def parseElems : Nat → List Char → Option (List JVal × List Char)
  | 0, _ => none
  | Nat.succ fuel, s =>
    match parseVal fuel s with
    | none => none
    | some (v, r) =>
      match skipWs r with
      | [] => none
      | d :: r2 =>
        if d = ']' then some ([v], r2)
        else if d = ',' then
          match parseElems fuel (skipWs r2) with
          | some (vs, r3) => some (v :: vs, r3)
          | none => none
        else none

/-- Parse the non-empty member list of an object, up to and including the
closing brace. -/
def parseMembers : Nat → List Char → Option (List (List Char × JVal) × List Char)
  | 0, _ => none
  | Nat.succ fuel, s =>
    match s with
    | [] => none
    | c :: rest =>
      if c = '"' then
        match parseStrBody rest with
        | none => none
        | some (k, r1) =>
          match skipWs r1 with
          | [] => none
          | d :: r2 =>
            if d = ':' then
              match parseVal fuel (skipWs r2) with
              | none => none
              | some (v, r3) =>
                match skipWs r3 with
                | [] => none
                | e :: r4 =>
                  if e = '}' then some ([(k, v)], r4)
                  else if e = ',' then
                    match parseMembers fuel (skipWs r4) with
                    | some (kvs, r5) => some ((k, v) :: kvs, r5)
                    | none => none
                  else none
            else none
      else none
end

/-- Top-level parse of a whole document, as `json.loads`: leading and
trailing whitespace allowed, anything else trailing is an error. -/
def parseJson (s : List Char) : Option JVal :=
  match parseVal (s.length + 1) (skipWs s) with
  | some (v, r) => if skipWs r = [] then some v else none
  | none => none

/-! ## Round-trip lemmas for the serializer / parser pair -/

theorem skipWs_cons {c : Char} (h : isWsChar c = false) (t : List Char) :
    skipWs (c :: t) = c :: t := by
  simp [skipWs, List.dropWhile_cons, h]

theorem skipWs_space (t : List Char) : skipWs (' ' :: t) = skipWs t := by
  have h : isWsChar ' ' = true := by decide
  simp [skipWs, List.dropWhile_cons, h]

theorem escStr_cons (c : Char) (t : List Char) :
    escStr (c :: t) = escChar c ++ escStr t := rfl

theorem parseStrBody_escStr (s rest : List Char) :
    parseStrBody (escStr s ++ '"' :: rest) = some (s, rest) := by
  induction s with
  | nil =>
    show parseStrBody ('"' :: rest) = some ([], rest)
    unfold parseStrBody
    simp
  | cons c t ih =>
    rw [escStr_cons, List.append_assoc]
    by_cases h1 : c = '"'
    · subst h1
      show parseStrBody ('\\' :: '"' :: (escStr t ++ '"' :: rest)) = some ('"' :: t, rest)
      unfold parseStrBody
      simp [unescChar, ih]
    · by_cases h2 : c = '\\'
      · subst h2
        show parseStrBody ('\\' :: '\\' :: (escStr t ++ '"' :: rest)) = some ('\\' :: t, rest)
        unfold parseStrBody
        simp [unescChar, ih]
      · have hesc : escChar c = [c] := by simp [escChar, h1, h2]
        rw [hesc]
        show parseStrBody (c :: (escStr t ++ '"' :: rest)) = some (c :: t, rest)
        unfold parseStrBody
        simp [h1, h2, ih]

theorem digitVal_digitChar {d : Nat} (h : d < 10) :
    digitVal (Nat.digitChar d) = d := by
  unfold digitVal
  interval_cases d <;> decide

theorem isDigit_digitChar {d : Nat} (h : d < 10) :
    (Nat.digitChar d).isDigit = true := by
  interval_cases d <;> decide

theorem serNat_ne_nil (n : Nat) : serNat n ≠ [] := by
  unfold serNat
  split
  · simp
  · rename_i h
    simp [Nat.digits_ne_nil_iff_ne_zero, h]

theorem mem_serNat_isDigit {n : Nat} {c : Char} (h : c ∈ serNat n) :
    c.isDigit = true := by
  unfold serNat at h
  split at h
  · simp at h
    subst h
    decide
  · simp only [List.mem_map, List.mem_reverse] at h
    obtain ⟨d, hd, rfl⟩ := h
    exact isDigit_digitChar (Nat.digits_lt_base (by norm_num) hd)

theorem isDigit_not_special {c : Char} (h : c.isDigit = true) :
    isWsChar c = false ∧ c ≠ ']' ∧ c ≠ '}' ∧ c ≠ ',' ∧ c ≠ '-' ∧ c ≠ 'n' ∧
      c ≠ 't' ∧ c ≠ 'f' ∧ c ≠ '"' ∧ c ≠ '[' ∧ c ≠ '{' := by
  refine ⟨?_, ?_, ?_, ?_, ?_, ?_, ?_, ?_, ?_, ?_, ?_⟩
  · simp only [isWsChar, decide_eq_false_iff_not]
    rintro (rfl | rfl | rfl | rfl) <;> exact absurd h (by decide)
  all_goals (rintro rfl; exact absurd h (by decide))

theorem foldr_digits_eq_ofDigits (ds : List Nat) :
    ds.foldr (fun d a => 10 * a + d) 0 = Nat.ofDigits 10 ds := by
  induction ds with
  | nil => simp [Nat.ofDigits]
  | cons d t ih => simp [Nat.ofDigits_cons, ih]; ring

theorem digsToNat_serNat (n : Nat) : digsToNat (serNat n) = n := by
  unfold serNat
  split
  · rename_i h
    subst h
    decide
  · unfold digsToNat
    rw [List.foldl_map]
    have hcong : ((Nat.digits 10 n).reverse).foldl
        (fun a d => 10 * a + digitVal (Nat.digitChar d)) 0 =
        ((Nat.digits 10 n).reverse).foldl (fun a d => 10 * a + d) 0 := by
      apply List.foldl_ext
      intro a d hd
      rw [digitVal_digitChar (Nat.digits_lt_base (by norm_num) (List.mem_reverse.mp hd))]
    rw [hcong, List.foldl_reverse]
    rw [show (fun (x y : Nat) => 10 * y + x) = (fun d a => 10 * a + d) from rfl]
    rw [foldr_digits_eq_ofDigits, Nat.ofDigits_digits]

/-- Splitting `takeWhile` / `dropWhile` at the boundary of an append whose
left part satisfies the predicate throughout and whose right part does not
start with it. -/
theorem takeWhile_append_of_all {p : Char → Bool} (r : List Char)
    (hr : ∀ c t, r = c :: t → p c = false) :
    ∀ l : List Char, (∀ c ∈ l, p c = true) →
      (l ++ r).takeWhile p = l ∧ (l ++ r).dropWhile p = r := by
  intro l
  induction l with
  | nil =>
    intro _
    simp only [List.nil_append]
    cases r with
    | nil => simp
    | cons c t =>
      simp [List.takeWhile_cons, List.dropWhile_cons, hr c t rfl]
  | cons a l ih =>
    intro hl
    have ha : p a = true := hl a (by simp)
    have ih' := ih (fun c hc => hl c (by simp [hc]))
    simp [List.takeWhile_cons, List.dropWhile_cons, ha, ih'.1, ih'.2]

theorem serNat_isEmpty_false (n : Nat) : (serNat n).isEmpty = false := by
  cases hsn : serNat n with
  | nil => exact absurd hsn (serNat_ne_nil n)
  | cons c t => rfl

theorem parseNumber_serInt (n : Int) (rest : List Char)
    (hrest : ∀ c t, rest = c :: t → c.isDigit = false) :
    parseNumber (serInt n ++ rest) = some (.jint n, rest) := by
  have hsp := fun m => takeWhile_append_of_all (p := Char.isDigit) rest hrest
    (serNat m) (fun c hc => mem_serNat_isDigit hc)
  unfold serInt
  split
  · rename_i hn
    show parseNumber ('-' :: (serNat n.natAbs ++ rest)) = _
    unfold parseNumber
    simp only [if_pos rfl, (hsp n.natAbs).1, (hsp n.natAbs).2,
      serNat_isEmpty_false, Bool.false_eq_true, if_false, digsToNat_serNat]
    rw [if_pos trivial]
    have h2 : -((n.natAbs : Int)) = n := by omega
    rw [h2]
  · rename_i hn
    obtain ⟨c, t, hct⟩ := List.exists_cons_of_ne_nil (serNat_ne_nil n.toNat)
    have hcmem : c ∈ serNat n.toNat := by
      rw [hct]; exact List.mem_cons_self c t
    have hcd := mem_serNat_isDigit hcmem
    have hcne : ¬(c = '-') := fun h => by
      subst h; exact absurd hcd (by decide)
    rw [hct, List.cons_append]
    simp only [parseNumber]
    rw [if_neg hcne, ← List.cons_append, ← hct]
    simp only [(hsp n.toNat).1, (hsp n.toNat).2, serNat_isEmpty_false,
      Bool.false_eq_true, if_false, digsToNat_serNat]
    have h2 : (n.toNat : Int) = n := by omega
    rw [h2]

/-- After a serialized value inside an array or object, the remaining
input starts with a separator or closer (or is the whole document's empty
remainder).  This is the context in which the parser meets numbers, so
digit scanning stops exactly at the value boundary. -/
def Delim : List Char → Prop
  | [] => True
  | c :: _ => c = ',' ∨ c = ']' ∨ c = '}'

theorem Delim_not_digit {rest : List Char} (h : Delim rest) :
    ∀ c t, rest = c :: t → c.isDigit = false := by
  intro c t hct
  subst hct
  rcases h with h | h | h <;> (subst h; decide)

theorem serInt_head (n : Int) :
    ∃ c t, serInt n = c :: t ∧ isWsChar c = false ∧ c ≠ ']' ∧ c ≠ '}' ∧
      c ≠ 'n' ∧ c ≠ 't' ∧ c ≠ 'f' ∧ c ≠ '"' ∧ c ≠ '[' ∧ c ≠ '{' := by
  unfold serInt
  split
  · exact ⟨'-', serNat n.natAbs, rfl, by decide, by decide, by decide,
      by decide, by decide, by decide, by decide, by decide, by decide⟩
  · obtain ⟨c, t, hct⟩ := List.exists_cons_of_ne_nil (serNat_ne_nil n.toNat)
    have hcd : c.isDigit = true := mem_serNat_isDigit (by
      rw [hct]; exact List.mem_cons_self c t)
    obtain ⟨hw, h1, h2, _, _, h3, h4, h5, h6, h7, h8⟩ := isDigit_not_special hcd
    exact ⟨c, t, hct, hw, h1, h2, h3, h4, h5, h6, h7, h8⟩

/-- Every serialized value starts with a character that is neither
whitespace nor a closing bracket or brace. -/
theorem serVal_head (v : JVal) :
    ∃ c t, serVal v = c :: t ∧ isWsChar c = false ∧ c ≠ ']' ∧ c ≠ '}' := by
  cases v with
  | jnull =>
    exact ⟨'n', ['u', 'l', 'l'], by simp [serVal], by decide, by decide, by decide⟩
  | jbool b =>
    cases b with
    | true =>
      exact ⟨'t', ['r', 'u', 'e'], by simp [serVal], by decide, by decide, by decide⟩
    | false =>
      exact ⟨'f', ['a', 'l', 's', 'e'], by simp [serVal], by decide, by decide, by decide⟩
  | jint n =>
    obtain ⟨c, t, hct, hw, h1, h2, _⟩ := serInt_head n
    exact ⟨c, t, by simp [serVal, hct], hw, h1, h2⟩
  | jstr s =>
    exact ⟨'"', escStr s ++ ['"'], by simp [serVal], by decide, by decide, by decide⟩
  | jarr l =>
    exact ⟨'[', serArr l ++ [']'], by simp [serVal], by decide, by decide, by decide⟩
  | jobj o =>
    exact ⟨'{', serObj o ++ ['}'], by simp [serVal], by decide, by decide, by decide⟩

theorem serArr_cons_decomp (v : JVal) (vs : List JVal) :
    ∃ t, serArr (v :: vs) = serVal v ++ t := by
  cases vs with
  | nil => exact ⟨[], by simp [serArr]⟩
  | cons u w => exact ⟨',' :: ' ' :: serArr (u :: w), by simp [serArr]⟩

theorem serObj_cons_decomp (k : List Char) (v : JVal)
    (kvs : List (List Char × JVal)) :
    ∃ t, serObj ((k, v) :: kvs) = serKV k v ++ t := by
  cases kvs with
  | nil => exact ⟨[], by simp [serObj]⟩
  | cons kv w => exact ⟨',' :: ' ' :: serObj (kv :: w), by simp [serObj]⟩

theorem parseVal_succ_lbracket (fuel : Nat) (rest : List Char) :
    parseVal (fuel + 1) ('[' :: rest) =
      (match skipWs rest with
       | [] => none
       | d :: r =>
         if d = ']' then some (.jarr [], r)
         else
           match parseElems fuel (d :: r) with
           | some (l, r2) => some (.jarr l, r2)
           | none => none) := by
  simp only [parseVal]
  rw [if_neg (by decide), if_neg (by decide), if_neg (by decide),
    if_neg (by decide), if_pos trivial]

theorem parseVal_succ_lbrace (fuel : Nat) (rest : List Char) :
    parseVal (fuel + 1) ('{' :: rest) =
      (match skipWs rest with
       | [] => none
       | d :: r =>
         if d = '}' then some (.jobj [], r)
         else
           match parseMembers fuel (d :: r) with
           | some (o, r2) => some (.jobj o, r2)
           | none => none) := by
  simp only [parseVal]
  rw [if_neg (by decide), if_neg (by decide), if_neg (by decide),
    if_neg (by decide), if_neg (by decide), if_pos trivial]

theorem Delim_comma (t : List Char) : Delim (',' :: t) := Or.inl rfl

theorem Delim_rbracket (t : List Char) : Delim (']' :: t) := Or.inr (Or.inl rfl)

theorem Delim_rbrace (t : List Char) : Delim ('}' :: t) := Or.inr (Or.inr rfl)

theorem skipWs_serVal_append (v : JVal) (x : List Char) :
    skipWs (serVal v ++ x) = serVal v ++ x := by
  obtain ⟨c, t, hct, hcw, _, _⟩ := serVal_head v
  rw [hct, List.cons_append]
  exact skipWs_cons hcw _

theorem skipWs_serArr_cons_append (v : JVal) (vs : List JVal) (x : List Char) :
    skipWs (serArr (v :: vs) ++ x) = serArr (v :: vs) ++ x := by
  obtain ⟨tl, htl⟩ := serArr_cons_decomp v vs
  rw [htl, List.append_assoc]
  exact skipWs_serVal_append v (tl ++ x)

theorem skipWs_serObj_cons_append (k : List Char) (v : JVal)
    (kvs : List (List Char × JVal)) (x : List Char) :
    skipWs (serObj ((k, v) :: kvs) ++ x) = serObj ((k, v) :: kvs) ++ x := by
  obtain ⟨tl, htl⟩ := serObj_cons_decomp k v kvs
  rw [htl, List.append_assoc]
  have h2 : serKV k v ++ (tl ++ x)
      = '"' :: (escStr k ++ '"' :: ':' :: ' ' :: (serVal v ++ (tl ++ x))) := by
    simp [serKV]
  rw [h2]
  exact skipWs_cons (by decide) _

/-- Round trip at every sufficient fuel: parsing a serialized value (or a
non-empty serialized array/object body followed by its closer) succeeds
and consumes exactly the serialized text. -/
theorem parse_ser (fuel : Nat) :
    (∀ v rest, sizeJ v ≤ fuel → Delim rest →
      parseVal fuel (serVal v ++ rest) = some (v, rest)) ∧
    (∀ l rest, l ≠ [] → sizeL l ≤ fuel →
      parseElems fuel (serArr l ++ ']' :: rest) = some (l, rest)) ∧
    (∀ o rest, o ≠ [] → sizeO o ≤ fuel →
      parseMembers fuel (serObj o ++ '}' :: rest) = some (o, rest)) := by
  induction fuel with
  | zero =>
    refine ⟨fun v rest hsz _ => absurd hsz (by have := sizeJ_pos v; omega),
      fun l rest hne hsz => ?_, fun o rest hne hsz => ?_⟩
    · cases l with
      | nil => exact absurd rfl hne
      | cons v vs => simp [sizeL] at hsz
    · cases o with
      | nil => exact absurd rfl hne
      | cons kv kvs =>
        obtain ⟨k, v⟩ := kv
        simp [sizeO] at hsz
  | succ fuel ih =>
    obtain ⟨ihP, ihQ, ihR⟩ := ih
    refine ⟨fun v rest hsz hdel => ?_, fun l rest hne hsz => ?_,
      fun o rest hne hsz => ?_⟩
    · -- parseVal on a serialized value
      cases v with
      | jnull => simp [serVal, parseVal]
      | jbool b => cases b <;> simp [serVal, parseVal]
      | jint n =>
        obtain ⟨c, t, hct, _, _, _, h3, h4, h5, h6, h7, h8⟩ := serInt_head n
        have hser : serVal (.jint n) = serInt n := by simp [serVal]
        rw [hser, hct, List.cons_append]
        simp only [parseVal]
        rw [if_neg h3, if_neg h4, if_neg h5, if_neg h6, if_neg h7, if_neg h8]
        rw [← List.cons_append, ← hct]
        exact parseNumber_serInt n rest (Delim_not_digit hdel)
      | jstr s => simp [serVal, parseVal, parseStrBody_escStr]
      | jarr l =>
        cases l with
        | nil =>
          have hws : isWsChar ']' = false := by decide
          simp [serVal, serArr, parseVal, skipWs_cons hws]
        | cons v1 vs =>
          obtain ⟨tl, htl⟩ := serArr_cons_decomp v1 vs
          obtain ⟨c, t, hct, hcw, hcrb, _⟩ := serVal_head v1
          have hX : serArr (v1 :: vs) ++ ']' :: rest
              = c :: (t ++ (tl ++ ']' :: rest)) := by
            rw [htl, hct]
            simp
          have hser : serVal (.jarr (v1 :: vs)) ++ rest
              = '[' :: (serArr (v1 :: vs) ++ ']' :: rest) := by
            simp [serVal]
          have hQ : parseElems fuel (c :: (t ++ (tl ++ ']' :: rest)))
              = some (v1 :: vs, rest) := by
            rw [← hX]
            exact ihQ (v1 :: vs) rest (by simp) (by simp [sizeJ] at hsz; omega)
          rw [hser, parseVal_succ_lbracket, skipWs_serArr_cons_append, hX]
          simp [hcrb, hQ]
      | jobj o =>
        cases o with
        | nil =>
          have hws : isWsChar '}' = false := by decide
          simp [serVal, serObj, parseVal, skipWs_cons hws]
        | cons kv kvs =>
          obtain ⟨k, v1⟩ := kv
          obtain ⟨tl, htl⟩ := serObj_cons_decomp k v1 kvs
          have hX : serObj ((k, v1) :: kvs) ++ '}' :: rest
              = '"' :: (escStr k ++ '"' :: ':' :: ' ' :: (serVal v1
                  ++ (tl ++ '}' :: rest))) := by
            rw [htl]
            simp [serKV]
          have hser : serVal (.jobj ((k, v1) :: kvs)) ++ rest
              = '{' :: (serObj ((k, v1) :: kvs) ++ '}' :: rest) := by
            simp [serVal]
          have hR : parseMembers fuel ('"' :: (escStr k ++ '"' :: ':' :: ' ' :: (serVal v1
                  ++ (tl ++ '}' :: rest))))
              = some ((k, v1) :: kvs, rest) := by
            rw [← hX]
            exact ihR ((k, v1) :: kvs) rest (by simp) (by simp [sizeJ] at hsz; omega)
          rw [hser, parseVal_succ_lbrace, skipWs_serObj_cons_append, hX]
          simp [hR]
    · -- parseElems on a serialized non-empty array body
      cases l with
      | nil => exact absurd rfl hne
      | cons v vs =>
        have hszv : sizeJ v ≤ fuel := by simp [sizeL] at hsz; omega
        cases vs with
        | nil =>
          have h1 : serArr [v] = serVal v := by simp [serArr]
          rw [h1]
          simp only [parseElems]
          rw [ihP v (']' :: rest) hszv (Delim_rbracket rest)]
          have hws : isWsChar ']' = false := by decide
          simp [skipWs_cons hws]
        | cons u w =>
          have h1 : serArr (v :: u :: w) ++ ']' :: rest
              = serVal v ++ (',' :: ' ' :: (serArr (u :: w) ++ ']' :: rest)) := by
            simp [serArr]
          rw [h1]
          simp only [parseElems]
          rw [ihP v _ hszv (Delim_comma _)]
          have hQ := ihQ (u :: w) rest (by simp)
            (by simp [sizeL] at hsz ⊢; omega)
          simp [skipWs_cons (show isWsChar ',' = false from by decide),
            skipWs_space, skipWs_serArr_cons_append, hQ]
    · -- parseMembers on a serialized non-empty object body
      cases o with
      | nil => exact absurd rfl hne
      | cons kv kvs =>
        obtain ⟨k, v⟩ := kv
        have hszv : sizeJ v ≤ fuel := by simp [sizeO] at hsz; omega
        cases kvs with
        | nil =>
          have h1 : serObj [(k, v)] ++ '}' :: rest
              = '"' :: (escStr k ++ '"' :: (':' :: ' ' :: (serVal v ++ '}' :: rest))) := by
            simp [serObj, serKV]
          have hP := ihP v ('}' :: rest) hszv (Delim_rbrace rest)
          rw [h1]
          simp only [parseMembers]
          simp [parseStrBody_escStr,
            skipWs_cons (show isWsChar ':' = false from by decide),
            skipWs_space, skipWs_serVal_append, hP,
            skipWs_cons (show isWsChar '}' = false from by decide)]
        | cons kv2 kvs2 =>
          obtain ⟨k2, v2⟩ := kv2
          have h1 : serObj ((k, v) :: (k2, v2) :: kvs2) ++ '}' :: rest
              = '"' :: (escStr k ++ '"' ::
                  (':' :: ' ' :: (serVal v ++
                    ',' :: ' ' :: (serObj ((k2, v2) :: kvs2) ++ '}' :: rest)))) := by
            simp [serObj, serKV]
          have hP := ihP v _ hszv (Delim_comma
            (' ' :: (serObj ((k2, v2) :: kvs2) ++ '}' :: rest)))
          have hR := ihR ((k2, v2) :: kvs2) rest (by simp)
            (by simp [sizeO] at hsz ⊢; omega)
          rw [h1]
          simp only [parseMembers]
          simp [parseStrBody_escStr,
            skipWs_cons (show isWsChar ':' = false from by decide),
            skipWs_space, skipWs_serVal_append, hP,
            skipWs_cons (show isWsChar ',' = false from by decide),
            skipWs_serObj_cons_append, hR]

mutual
/-- The structural size of a value is bounded by the length of its
serialization, so the input length is always a sufficient parser fuel. -/
theorem sizeJ_le_length (v : JVal) : sizeJ v ≤ (serVal v).length := by
  cases v with
  | jnull => simp [sizeJ, serVal]
  | jbool b => cases b <;> simp [sizeJ, serVal]
  | jint n =>
    obtain ⟨c, t, hct, _⟩ := serInt_head n
    simp [sizeJ, serVal, hct]
  | jstr s => simp [sizeJ, serVal]
  | jarr l =>
    have h := sizeL_le_length l
    simp only [sizeJ, serVal, List.length_cons, List.length_append,
      List.length_singleton]
    omega
  | jobj o =>
    have h := sizeO_le_length o
    simp only [sizeJ, serVal, List.length_cons, List.length_append,
      List.length_singleton]
    omega

/-- Size bound for serialized array bodies. -/
theorem sizeL_le_length (l : List JVal) : sizeL l ≤ (serArr l).length + 1 := by
  cases l with
  | nil => simp [sizeL]
  | cons v vs =>
    cases vs with
    | nil =>
      have h := sizeJ_le_length v
      simp only [sizeL, sizeL, serArr]
      omega
    | cons u w =>
      have h1 := sizeJ_le_length v
      have h2 := sizeL_le_length (u :: w)
      simp only [sizeL] at h2
      simp only [sizeL, serArr, List.length_append, List.length_cons]
      omega

/-- Size bound for serialized object bodies. -/
theorem sizeO_le_length (o : List (List Char × JVal)) :
    sizeO o ≤ (serObj o).length + 1 := by
  cases o with
  | nil => simp [sizeO]
  | cons kv kvs =>
    obtain ⟨k, v⟩ := kv
    cases kvs with
    | nil =>
      have h := sizeJ_le_length v
      simp only [sizeO, sizeO, serObj, serKV, List.length_cons,
        List.length_append]
      omega
    | cons kv2 kvs2 =>
      have h1 := sizeJ_le_length v
      have h2 := sizeO_le_length (kv2 :: kvs2)
      obtain ⟨k2, v2⟩ := kv2
      simp only [sizeO] at h2
      simp only [sizeO, serObj, serKV, List.length_append, List.length_cons]
      omega
end

/-- Parsing the serialization of any value as a whole document yields the
value back. -/
theorem parseJson_serVal (v : JVal) : parseJson (serVal v) = some v := by
  unfold parseJson
  rw [show skipWs (serVal v) = serVal v from by
    simpa using skipWs_serVal_append v []]
  have hP := (parse_ser ((serVal v).length + 1)).1 v []
    (by have := sizeJ_le_length v; omega) trivial
  rw [List.append_nil] at hP
  rw [hP]
  simp [skipWs]

/-- The `items` field translation applied when an order is written to the
remote store: `json.dumps(supabase_data['items'])` for an items list
(`add_document`, line 526 of `app.py`). -/
def items_to_remote_format (items : List JVal) : List Char :=
  serVal (.jarr items)

/-- The `items` field translation applied when orders are loaded from the
remote store: `json.loads` of the stored string, with a decode failure
replaced by the empty list (`load_data`, lines 276-280 of `app.py`). -/
def remote_format_to_items (s : List Char) : JVal :=
  match parseJson s with
  | some v => v
  | none => .jarr []

/-! ## Local file store (the `data/` directory of `app.py`)

The store is generic in the record type `α` held by a collection file;
the JSON encoding of a file is abstracted to the decoded value it holds,
with distinguished states for a missing, empty or undecodable file. -/

/-- Observable state of one collection file. -/
inductive FileVal (α : Type) : Type where
  | absent : FileVal α
  | empty : FileVal α
  | malformed : FileVal α
  | content (data : List α) : FileVal α
deriving DecidableEq

/-- One timestamped backup copy of a collection file, as created by
`create_backup`; `mtime` is the modification timestamp the rotation logic
sorts by. -/
structure BackupFile (α : Type) where
  coll : String
  mtime : Nat
  data : FileVal α
deriving DecidableEq

/-- The local JSON file store: the three collection files of
`file_mapping` plus the `data/backups` directory. -/
structure LocalFS (α : Type) where
  orders : FileVal α
  manual_orders : FileVal α
  daily_totals : FileVal α
  backups : List (BackupFile α)
deriving DecidableEq

variable {α : Type}

/-- `file_mapping.get(collection_name)`: the file of a collection name,
`none` for an unknown collection. -/
def getFile (fs : LocalFS α) : String → Option (FileVal α)
  | "orders" => some fs.orders
  | "manual_orders" => some fs.manual_orders
  | "daily_totals" => some fs.daily_totals
  | _ => none

/-- Replace the file of a known collection. -/
def setFile (fs : LocalFS α) (c : String) (v : FileVal α) : LocalFS α :=
  match c with
  | "orders" => { fs with orders := v }
  | "manual_orders" => { fs with manual_orders := v }
  | "daily_totals" => { fs with daily_totals := v }
  | _ => fs

/-- The backups of one collection currently on disk (the glob over
`backups/<collection>_*.json`). -/
def backupsFor (fs : LocalFS α) (c : String) : List (BackupFile α) :=
  fs.backups.filter (fun b => b.coll == c)

/-- Insert into a list already sorted by decreasing mtime. -/
def insertByMtimeDesc (b : BackupFile α) :
    List (BackupFile α) → List (BackupFile α)
  | [] => [b]
  | x :: xs =>
    if x.mtime ≤ b.mtime then b :: x :: xs else x :: insertByMtimeDesc b xs

/-- Sort by decreasing mtime, as
`backup_files.sort(key=lambda x: x.stat().st_mtime, reverse=True)`. -/
def sortByMtimeDesc (l : List (BackupFile α)) : List (BackupFile α) :=
  l.foldr insertByMtimeDesc []

/-- `cleanup_old_backups(collection_name, keep)` (lines 460-474): when
more than `keep` backups of the collection exist, keep the `keep` newest
by modification time and delete the rest. -/
def cleanup_old_backups (fs : LocalFS α) (c : String) (keep : Nat) :
    LocalFS α :=
  let bs := backupsFor fs c
  if keep < bs.length then
    { fs with backups :=
        fs.backups.filter (fun b => !(b.coll == c))
          ++ (sortByMtimeDesc bs).take keep }
  else fs

/-- `create_backup(collection_name)` (lines 434-458): if the collection
file exists, prune the stored backups to the 10 newest and then add a
timestamped copy of the current file; `t` is the timestamp in the backup's
name and its modification time. -/
def create_backup (fs : LocalFS α) (c : String) (t : Nat) : LocalFS α :=
  match getFile fs c with
  | none => fs
  | some .absent => fs
  | some fv =>
    let fs1 := cleanup_old_backups fs c 10
    { fs1 with backups := fs1.backups ++ [⟨c, t, fv⟩] }

/-- `save_data_local(collection_name, data)` (lines 390-432) on its
success path: create a backup of the existing file, then atomically
replace the collection file with the serialized data; an unknown
collection name returns without writing. -/
def save_data_local (fs : LocalFS α) (c : String) (data : List α) (t : Nat) :
    LocalFS α :=
  let fs1 := create_backup fs c t
  match getFile fs1 c with
  | none => fs1
  | some _ => setFile fs1 c (.content data)

/-- `load_backup_data(collection_name)` (lines 476-494): the decoded
content of the most recent backup of the collection, `[]` when there is
none or it cannot be decoded. -/
def load_backup_data (fs : LocalFS α) (c : String) : List α :=
  match sortByMtimeDesc (backupsFor fs c) with
  | [] => []
  | b :: _ =>
    match b.data with
    | .content l => l
    | _ => []

/-- `load_data_local(collection_name)` (lines 309-344): read and decode
the collection file; an unknown collection or a missing or empty file
yields `[]`; an undecodable file falls back to the newest backup. -/
def load_data_local (fs : LocalFS α) (c : String) : List α :=
  match getFile fs c with
  | none => []
  | some .absent => []
  | some .empty => []
  | some .malformed => load_backup_data fs c
  | some (.content l) => l

/-- `add_document_local(collection_name, document_data)` (lines 563-572):
append the document to the loaded collection and save it back. -/
def add_document_local (fs : LocalFS α) (c : String) (doc : α) (t : Nat) :
    LocalFS α :=
  save_data_local fs c (load_data_local fs c ++ [doc]) t

/-! ## Remote-first dispatch with silent local fallback -/

/-- Outcome of a remote (Supabase) call sequence: a returned value, or
any raised exception. -/
inductive Remote (α : Type) : Type where
  | ok (val : α) : Remote α
  | exc : Remote α

/-- The collections with a remote table in `table_mapping`. -/
def remote_table (c : String) : Bool :=
  c == "orders" || c == "manual_orders" || c == "daily_totals" ||
    c == "staff_calls"

/-- `load_data(collection_name)` (lines 245-307): with a Supabase client
configured, query the remote table — `remote` is the outcome of that query
after the schema translation of lines 267-290 — and on any exception fall
back to `load_data_local`; without a client, read the local store. -/
def load_data (supabaseOn : Bool) (remote : Remote (List α)) (fs : LocalFS α)
    (c : String) : List α :=
  if supabaseOn then
    if remote_table c = false then []
    else
      match remote with
      | .ok d => d
      | .exc => load_data_local fs c
  else load_data_local fs c

/-- `save_data(collection_name, data)` (lines 346-388): remote-first
write; a successful remote write is followed by a local backup write, and
any remote exception falls back to the local write alone.  An unknown
collection returns without writing. -/
def save_data (supabaseOn : Bool) (remote : Remote Unit) (fs : LocalFS α)
    (c : String) (data : List α) (t : Nat) : LocalFS α :=
  if supabaseOn then
    if remote_table c = false then fs
    else
      match remote with
      | .ok _ => save_data_local fs c data t
      | .exc => save_data_local fs c data t
  else save_data_local fs c data t

/-- `add_document(collection_name, document_data)` (lines 496-561):
remote-first insert; on success only the remote store is written (plus a
socket emit), and on any exception the document is appended to the local
store by `add_document_local` instead. -/
def add_document (supabaseOn : Bool) (remote : Remote Unit) (fs : LocalFS α)
    (c : String) (doc : α) (t : Nat) : LocalFS α :=
  if supabaseOn then
    if remote_table c = false then fs
    else
      match remote with
      | .ok _ => fs
      | .exc => add_document_local fs c doc t
  else add_document_local fs c doc t

/-! ## Application data model

Machine floats (`price`, `quantity`, `total`, revenues) are modelled as
rationals; fresh uuids and `datetime.now()` strings are passed in as
arguments. -/

/-- One snapshotted order item, validated by `place_order`
(lines 996-1001). -/
structure OrderItem where
  id : String
  name : String
  price : ℚ
  quantity : ℚ
deriving DecidableEq

/-- A digital order as built by `place_order` (lines 1008-1017);
`updated_at` is stamped only by `update_order_status_new`. -/
structure Order where
  id : String
  customer_name : String
  table_number : String
  items : List OrderItem
  total : ℚ
  timestamp : String
  date : String
  status : String
  updated_at : Option String
deriving DecidableEq

/-- A manual order as built by `add_manual_order` (lines 1331-1341). -/
structure ManualOrder where
  id : String
  customer_name : String
  table_number : String
  items_description : String
  total : ℚ
  notes : String
  timestamp : String
  date : String
deriving DecidableEq

/-- One daily-totals record (lines 680-688). -/
structure DailyTotals where
  date : String
  digital_orders : Nat
  manual_orders : Nat
  digital_revenue : ℚ
  manual_revenue : ℚ
  total_orders : Nat
  total_revenue : ℚ
deriving DecidableEq

/-- A staff alert is a Python dict; it is modelled as an association list
so the key names the handlers read stay observable (`call_staff` stores
the table under the key `table_number`). -/
abbrev Alert := List (String × String)

/-- `d.get(k)` on an alert dict. -/
def dget (a : Alert) (k : String) : Option String :=
  (a.find? (fun p => p.1 == k)).map (fun p => p.2)

/-- The mutable collections the handlers touch: the persisted orders,
manual orders and daily totals, and the in-memory staff alert list. -/
structure AppState where
  orders : List Order
  manualOrders : List ManualOrder
  dailyTotals : List DailyTotals
  staffAlerts : List Alert
deriving DecidableEq

/-- A handler response: the success payload, or an HTTP error status code
with its message. -/
inductive ApiResult (α : Type) : Type where
  | success (val : α) : ApiResult α
  | error (code : Nat) (msg : String) : ApiResult α
deriving DecidableEq

/-! ## Daily totals aggregator -/

/-- The zeroed totals record created for a new day (lines 680-688). -/
def defaultTotals (today : String) : DailyTotals :=
  { date := today
    digital_orders := 0
    manual_orders := 0
    digital_revenue := 0
    manual_revenue := 0
    total_orders := 0
    total_revenue := 0 }

/-- The per-order mutation of `update_daily_totals` (lines 691-701):
bump the counter and revenue of the order's kind, then recompute the
`total_*` fields as the sums of the per-kind fields. -/
def applyOrderType (amount : ℚ) (order_type : String) (t : DailyTotals) :
    DailyTotals :=
  let t1 :=
    if order_type = "digital" then
      { t with
        digital_orders := t.digital_orders + 1
        digital_revenue := t.digital_revenue + amount }
    else if order_type = "manual" then
      { t with
        manual_orders := t.manual_orders + 1
        manual_revenue := t.manual_revenue + amount }
    else t
  { t1 with
    total_orders := t1.digital_orders + t1.manual_orders
    total_revenue := t1.digital_revenue + t1.manual_revenue }

/-- `update_daily_totals(amount, order_type)` (lines 665-703): mutate the
first record for `today` in place, or append a freshly created one, and
write the whole collection back. -/
def update_daily_totals (amount : ℚ) (order_type : String) (today : String) :
    List DailyTotals → List DailyTotals
  | [] => [applyOrderType amount order_type (defaultTotals today)]
  | t :: ts =>
    if t.date = today then applyOrderType amount order_type t :: ts
    else t :: update_daily_totals amount order_type today ts

/-! ## Order placement -/

/-- A `place_order` request body after string stripping.  `total` is
`none` when the request carries no numeric total; the falsy check of
line 992 also rejects a total of 0, captured by the `≤ 0` test. -/
structure PlaceOrderRequest where
  customer_name : String
  table_number : String
  items : List OrderItem
  total : Option ℚ
deriving DecidableEq

/-- `place_order` (lines 969-1049) over the local-mode stores: validate
the request, verify the declared total against the computed item sum with
a 0.01 tolerance, then persist the order and update today's totals. -/
def place_order (newId ts today : String) (req : PlaceOrderRequest)
    (st : AppState) : ApiResult String × AppState :=
  if req.customer_name = "" then
    (.error 400 "Customer name is required", st)
  else if req.table_number = "" then
    (.error 400 "Table number is required", st)
  else if req.items = [] then
    (.error 400 "Order items are required", st)
  else
    match req.total with
    | none => (.error 400 "Valid total amount is required", st)
    | some total =>
      if total ≤ 0 then (.error 400 "Valid total amount is required", st)
      else if req.items.any
          (fun i => decide (i.quantity ≤ 0) || decide (i.price ≤ 0)) then
        (.error 400 "Invalid item quantity or price", st)
      else
        let calculated_total := (req.items.map (fun i => i.price * i.quantity)).sum
        if 1 / 100 < |calculated_total - total| then
          (.error 400 "Order total mismatch", st)
        else
          let order : Order := {
            id := newId
            customer_name := req.customer_name
            table_number := req.table_number
            items := req.items
            total := total
            timestamp := ts
            date := today
            status := "pending"
            updated_at := none }
          let st1 := { st with orders := st.orders ++ [order] }
          let st2 := { st1 with
            dailyTotals := update_daily_totals total "digital" today st1.dailyTotals }
          (.success newId, st2)

/-! ## Clearing all orders -/

/-- Zero every counter and revenue field of a totals record
(lines 1279-1286). -/
def zeroTotals (t : DailyTotals) : DailyTotals :=
  { t with
    digital_orders := 0
    manual_orders := 0
    digital_revenue := 0
    manual_revenue := 0
    total_orders := 0
    total_revenue := 0 }

/-- The reset loop of `clear_all_orders`: zero the first record for today
if one exists (the loop breaks after the first match). -/
def resetToday (today : String) : List DailyTotals → List DailyTotals
  | [] => []
  | t :: ts =>
    if t.date = today then zeroTotals t :: ts else t :: resetToday today ts

/-- `clear_all_orders` (lines 1255-1294) over the local-mode stores:
empty the orders collection and zero today's totals record; nothing else
is touched. -/
def clear_all_orders (today : String) (st : AppState) :
    ApiResult Unit × AppState :=
  let st1 := { st with orders := [] }
  let st2 := { st1 with dailyTotals := resetToday today st1.dailyTotals }
  (.success (), st2)

/-! ## Order status updates -/

/-- Set the status of the first order with the given id; `none` when no
order matches (the loop of lines 1180-1186). -/
def setStatusFirst (oid s : String) : List Order → Option (List Order)
  | [] => none
  | o :: os =>
    if o.id = oid then some ({ o with status := s } :: os)
    else (setStatusFirst oid s os).map (fun os2 => o :: os2)

/-- `update_order_status` (lines 1161-1199): reject a missing or empty
order id or status, write the first matching order's status verbatim, and
answer 404 when no order matches.  Any status string is accepted; no
transition table is consulted. -/
def update_order_status (order_id new_status : Option String)
    (orders : List Order) : ApiResult Unit × List Order :=
  match order_id, new_status with
  | none, _ => (.error 400 "Order ID and status are required", orders)
  | _, none => (.error 400 "Order ID and status are required", orders)
  | some oid, some s =>
    if oid = "" ∨ s = "" then
      (.error 400 "Order ID and status are required", orders)
    else
      match setStatusFirst oid s orders with
      | none => (.error 404 "Order not found", orders)
      | some orders2 => (.success (), orders2)

/-- Set status and `updated_at` of the first order with the given id
(the loop of lines 1758-1768). -/
def setStatusFirstNew (oid s now : String) : List Order → Option (List Order)
  | [] => none
  | o :: os =>
    if o.id = oid then
      some ({ o with
        status := s
        updated_at := some now } :: os)
    else (setStatusFirstNew oid s now os).map (fun os2 => o :: os2)

/-- `update_order_status_new` (lines 1742-1781): the dashboard variant;
also stamps `updated_at` and saves the whole collection back.  Any
non-empty status string is accepted unconditionally. -/
def update_order_status_new (order_id : String) (new_status : Option String)
    (now : String) (orders : List Order) : ApiResult Unit × List Order :=
  match new_status with
  | none => (.error 400 "Status is required", orders)
  | some s =>
    if s = "" then (.error 400 "Status is required", orders)
    else
      match orders with
      | [] => (.error 404 "Order not found", orders)
      | _ =>
        match setStatusFirstNew order_id s now orders with
        | none => (.error 404 "Order not found", orders)
        | some orders2 => (.success (), orders2)

/-! ## Staff alerts -/

/-- Python's `str.isdigit` on an ASCII table number: non-empty and all
digits. -/
def pyIsdigit (s : String) : Bool :=
  ¬(s.data = []) && s.data.all Char.isDigit

/-- `call_staff` (lines 925-967): validate the names and the table number
format, then append the alert dict to the in-memory list.  The alert
stores its table under the key `table_number`. -/
def call_staff (newId ts table_number customer_name : String)
    (alerts : List Alert) : ApiResult Unit × List Alert :=
  if table_number = "" ∨ customer_name = "" then
    (.error 400 "Table number and customer name are required", alerts)
  else if (pyIsdigit table_number || table_number.startsWith "VIP") = false then
    (.error 400 "Invalid table number format", alerts)
  else
    (.success (), alerts ++ [[("id", newId), ("table_number", table_number),
      ("customer_name", customer_name), ("timestamp", ts),
      ("type", "call_staff")]])

/-- `clean_table` (lines 1721-1740): drop the table's orders and then
filter the alert list on the key `table` — although alerts store their
table under `table_number`. -/
def clean_table (table_id : String) (st : AppState) :
    ApiResult Unit × AppState :=
  let st1 := { st with
    orders := st.orders.filter (fun o => !(o.table_number == table_id)) }
  let st2 := { st1 with
    staffAlerts := st1.staffAlerts.filter
      (fun a => !(dget a "table" == some table_id)) }
  (.success (), st2)

/-- `clear_table_alerts` (lines 1596-1602): bulk-remove the alerts whose
`table` key equals the table number (alerts store the key
`table_number`). -/
def clear_table_alerts (table_number : String) (alerts : List Alert) :
    List Alert :=
  alerts.filter (fun a => !(dget a "table" == some table_number))

/-- `dismiss_alert` (lines 1201-1218): reject a missing or empty alert id;
otherwise filter out every alert with that id and report success — also
when nothing matched. -/
def dismiss_alert (alert_id : Option String) (alerts : List Alert) :
    ApiResult Unit × List Alert :=
  match alert_id with
  | none => (.error 400 "Alert ID is required", alerts)
  | some aid =>
    if aid = "" then (.error 400 "Alert ID is required", alerts)
    else (.success (), alerts.filter (fun a => !(dget a "id" == some aid)))

/-- Remove the first alert with the given id (the loop of
lines 1790-1794). -/
def removeFirstAlert (aid : String) : List Alert → Option (List Alert)
  | [] => none
  | a :: rest =>
    if dget a "id" == some aid then some rest
    else (removeFirstAlert aid rest).map (fun rest2 => a :: rest2)

/-- `resolve_alert` (lines 1783-1803): remove the first alert with the
given id and succeed, or answer 404 leaving the list unchanged. -/
def resolve_alert (alert_id : String) (alerts : List Alert) :
    ApiResult Unit × List Alert :=
  match removeFirstAlert alert_id alerts with
  | some alerts2 => (.success (), alerts2)
  | none => (.error 404 "Alert not found", alerts)

/-- `save_data_local` folded over the timestamps `1, …, n`: `n` successive
successful saves of the same data to one collection. -/
def iterate_saves (c : String) (L : List Nat) :
    Nat → LocalFS Nat → LocalFS Nat
  | 0, fs => fs
  | n + 1, fs => save_data_local (iterate_saves c L n fs) c L (n + 1)

/-! ## Claim theorems -/

/-- Claim C2: for every valid item list, JSON-encoding it to the remote
`items` string (as `add_document` does on write) and then json-decoding
that string (as `load_data` does on read) yields the original list:
parse after serialize is the identity on item lists. -/
theorem claim_c2_items_roundtrip (L : List JVal) :
    remote_format_to_items (items_to_remote_format L) = .jarr L := by
  unfold remote_format_to_items items_to_remote_format
  rw [parseJson_serVal]

/-- Claim C1: for the collections orders, manual_orders and daily_totals,
when the remote backend raises any exception, `load_data` returns exactly
the local loader's result and `save_data` / `add_document` complete by
performing the corresponding local write; the model functions are total,
so no exception reaches the caller. -/
theorem claim_c1_remote_failure_falls_back {α : Type} (fs : LocalFS α)
    (c : String) (L : List α) (d : α) (t : Nat)
    (hc : c = "orders" ∨ c = "manual_orders" ∨ c = "daily_totals") :
    load_data true .exc fs c = load_data_local fs c ∧
    save_data true .exc fs c L t = save_data_local fs c L t ∧
    add_document true .exc fs c d t = add_document_local fs c d t := by
  have hr : remote_table c = true := by
    rcases hc with rfl | rfl | rfl <;> rfl
  refine ⟨?_, ?_, ?_⟩ <;> simp [load_data, save_data, add_document, hr]

/-- Witness for C1 on a concrete store and the orders collection. -/
theorem claim_c1_witness :
    load_data true .exc
        (⟨.content [5], .absent, .absent, []⟩ : LocalFS Nat) "orders"
      = load_data_local
        (⟨.content [5], .absent, .absent, []⟩ : LocalFS Nat) "orders" ∧
    save_data true .exc
        (⟨.content [5], .absent, .absent, []⟩ : LocalFS Nat) "orders" [7] 2
      = save_data_local
        (⟨.content [5], .absent, .absent, []⟩ : LocalFS Nat) "orders" [7] 2 ∧
    add_document true .exc
        (⟨.content [5], .absent, .absent, []⟩ : LocalFS Nat) "orders" 9 2
      = add_document_local
        (⟨.content [5], .absent, .absent, []⟩ : LocalFS Nat) "orders" 9 2 :=
  claim_c1_remote_failure_falls_back
    (⟨.content [5], .absent, .absent, []⟩ : LocalFS Nat) "orders" [7] 9 2
    (Or.inl rfl)

/-- Claim C5: for each of the three collections, a successful local save
followed by a local load in the same process returns exactly the saved
record list. -/
theorem claim_c5_save_then_load {α : Type} (fs : LocalFS α) (c : String)
    (L : List α) (t : Nat)
    (hc : c = "orders" ∨ c = "manual_orders" ∨ c = "daily_totals") :
    load_data_local (save_data_local fs c L t) c = L := by
  rcases hc with rfl | rfl | rfl
  · cases hfo : fs.orders <;>
      simp [save_data_local, create_backup, getFile, setFile,
        load_data_local, hfo]
  · cases hfo : fs.manual_orders <;>
      simp [save_data_local, create_backup, getFile, setFile,
        load_data_local, hfo]
  · cases hfo : fs.daily_totals <;>
      simp [save_data_local, create_backup, getFile, setFile,
        load_data_local, hfo]

/-- Witness for C5 on a concrete store and the daily_totals collection. -/
theorem claim_c5_witness :
    load_data_local
        (save_data_local (⟨.absent, .empty, .content [3], []⟩ : LocalFS Nat)
          "daily_totals" [1, 2] 4) "daily_totals" = [1, 2] :=
  claim_c5_save_then_load (⟨.absent, .empty, .content [3], []⟩ : LocalFS Nat)
    "daily_totals" [1, 2] 4 (Or.inr (Or.inr rfl))

/-- Claim C6 (code bug): starting from an empty store, 15 successful
saves (N + 5 for the retention limit N = 10) to the orders collection at
distinct timestamps leave 11 backup files of that collection, not 10 —
`create_backup` prunes to the 10 newest *before* adding the new backup —
and the retained backups are the 11 newest by modification time. -/
theorem claim_c6_backup_rotation_leaves_eleven :
    (backupsFor (iterate_saves "orders" [] 15
        ⟨.absent, .absent, .absent, []⟩) "orders").length = 11 ∧
    ((sortByMtimeDesc (backupsFor (iterate_saves "orders" [] 15
        ⟨.absent, .absent, .absent, []⟩) "orders")).map (fun b => b.mtime))
      = [15, 14, 13, 12, 11, 10, 9, 8, 7, 6, 5] := by
  constructor
  · decide
  · decide

/-- Claim C4: two aggregator applications (one digital, one manual) on a
collection with no record for today append a single fresh record for
today carrying both counters at 1, `total_orders = 2` and
`total_revenue = amount + amount2`, with the totals recomputed as the
sums of the per-kind fields. -/
theorem claim_c4_two_applies_on_empty_day (amount amount2 : ℚ)
    (today : String) (L : List DailyTotals)
    (h : ∀ r ∈ L, r.date ≠ today) :
    update_daily_totals amount2 "manual" today
        (update_daily_totals amount "digital" today L)
      = L ++ [{ date := today
                digital_orders := 1
                manual_orders := 1
                digital_revenue := amount
                manual_revenue := amount2
                total_orders := 2
                total_revenue := amount + amount2 }] := by
  induction L with
  | nil =>
    simp [update_daily_totals, applyOrderType, defaultTotals]
  | cons r rs ih =>
    have hr : r.date ≠ today := h r (by simp)
    simp only [update_daily_totals, if_neg hr, List.cons_append,
      List.cons.injEq, true_and]
    exact ih (fun x hx => h x (by simp [hx]))

/-- Witness for C4 on concrete amounts and a one-record collection for
another day. -/
theorem claim_c4_witness :
    update_daily_totals 50 "manual" "2026-10-12"
        (update_daily_totals 200 "digital" "2026-10-12"
          [{ date := "2026-10-11"
             digital_orders := 3
             manual_orders := 0
             digital_revenue := 70
             manual_revenue := 0
             total_orders := 3
             total_revenue := 70 }])
      = [{ date := "2026-10-11"
           digital_orders := 3
           manual_orders := 0
           digital_revenue := 70
           manual_revenue := 0
           total_orders := 3
           total_revenue := 70 },
         { date := "2026-10-12"
           digital_orders := 1
           manual_orders := 1
           digital_revenue := 200
           manual_revenue := 50
           total_orders := 2
           total_revenue := 200 + 50 }] :=
  claim_c4_two_applies_on_empty_day 200 50 "2026-10-12" _
    (by intro r hr; simp at hr; subst hr; decide)

/-- When no record has today's date, the reset loop leaves the list
unchanged record by record. -/
theorem resetToday_no_match (today : String) :
    ∀ L : List DailyTotals, (∀ r ∈ L, r.date ≠ today) → resetToday today L = L := by
  intro L h
  induction L with
  | nil => rfl
  | cons r rs ih =>
    have hr : r.date ≠ today := h r (by simp)
    simp only [resetToday, if_neg hr, List.cons.injEq, true_and]
    exact ih (fun x hx => h x (by simp [hx]))

/-- Zeroing today's records is the identity on a list without a record
for today. -/
theorem map_zeroTotals_no_match (today : String) :
    ∀ L : List DailyTotals, (∀ r ∈ L, r.date ≠ today) →
      L.map (fun r => if r.date = today then zeroTotals r else r) = L := by
  intro L h
  induction L with
  | nil => rfl
  | cons r rs ih =>
    have hr : r.date ≠ today := h r (by simp)
    simp only [List.map_cons, if_neg hr, List.cons.injEq, true_and]
    exact ih (fun x hx => h x (by simp [hx]))

/-- With at most one record for today, the reset loop acts as a pointwise
map zeroing exactly the today records. -/
theorem resetToday_eq_map (today : String) :
    ∀ L : List DailyTotals,
      (L.filter (fun r => r.date == today)).length ≤ 1 →
      resetToday today L
        = L.map (fun r => if r.date = today then zeroTotals r else r) := by
  intro L h
  induction L with
  | nil => rfl
  | cons r rs ih =>
    by_cases hr : r.date = today
    · have hrs : ∀ x ∈ rs, x.date ≠ today := by
        intro x hx hxd
        have : 2 ≤ ((r :: rs).filter (fun r => r.date == today)).length := by
          simp only [List.filter_cons, hr]
          simp only [beq_self_eq_true, if_pos trivial, List.length_cons]
          have : x ∈ rs.filter (fun r => r.date == today) :=
            List.mem_filter.mpr ⟨hx, by simp [hxd]⟩
          have := List.length_pos_of_mem this
          omega
        omega
      simp only [resetToday, if_pos hr, List.map_cons, if_pos hr,
        List.cons.injEq, true_and]
      exact (map_zeroTotals_no_match today rs hrs).symm
    · have h2 : (rs.filter (fun r => r.date == today)).length ≤ 1 := by
        have : (r :: rs).filter (fun r => r.date == today)
            = rs.filter (fun r => r.date == today) := by
          simp [List.filter_cons, hr]
        rw [this] at h
        exact h
      simp only [resetToday, if_neg hr, List.map_cons, if_neg hr,
        List.cons.injEq, true_and]
      exact ih h2

/-- Claim C10: clear-all-orders empties the orders collection, zeroes
every counter and revenue field of today's totals record (when at most
one record exists per date, as the upsert semantics guarantee), and
leaves the totals records of other dates and the whole manual_orders
collection unchanged. -/
theorem claim_c10_clear_all_orders_frame (today : String) (st : AppState)
    (h : (st.dailyTotals.filter (fun r => r.date == today)).length ≤ 1) :
    (clear_all_orders today st).1 = .success () ∧
    (clear_all_orders today st).2.orders = [] ∧
    (clear_all_orders today st).2.manualOrders = st.manualOrders ∧
    (clear_all_orders today st).2.staffAlerts = st.staffAlerts ∧
    (clear_all_orders today st).2.dailyTotals
      = st.dailyTotals.map
          (fun r => if r.date = today then zeroTotals r else r) := by
  refine ⟨rfl, rfl, rfl, rfl, ?_⟩
  exact resetToday_eq_map today st.dailyTotals h

/-- Witness for C10 on a concrete state holding a record for today, one
for another day, one manual order and one alert. -/
theorem claim_c10_witness :
    (clear_all_orders "2026-10-12"
        { orders := [{ id := "o1"
                       customer_name := "Alice"
                       table_number := "5"
                       items := []
                       total := 200
                       timestamp := "12:00:00"
                       date := "2026-10-12"
                       status := "pending"
                       updated_at := none }]
          manualOrders := [{ id := "m1"
                             customer_name := "Walk-in Customer"
                             table_number := "Takeout"
                             items_description := "tea"
                             total := 5
                             notes := ""
                             timestamp := "2026-10-12 12:00:00"
                             date := "2026-10-12" }]
          dailyTotals := [{ date := "2026-10-11"
                            digital_orders := 3
                            manual_orders := 1
                            digital_revenue := 70
                            manual_revenue := 5
                            total_orders := 4
                            total_revenue := 75 },
                          { date := "2026-10-12"
                            digital_orders := 1
                            manual_orders := 0
                            digital_revenue := 200
                            manual_revenue := 0
                            total_orders := 1
                            total_revenue := 200 }]
          staffAlerts := [] }).2.dailyTotals
      = [{ date := "2026-10-11"
           digital_orders := 3
           manual_orders := 1
           digital_revenue := 70
           manual_revenue := 5
           total_orders := 4
           total_revenue := 75 },
         { date := "2026-10-12"
           digital_orders := 0
           manual_orders := 0
           digital_revenue := 0
           manual_revenue := 0
           total_orders := 0
           total_revenue := 0 }] := by
  have h := (claim_c10_clear_all_orders_frame "2026-10-12"
    { orders := [{ id := "o1"
                   customer_name := "Alice"
                   table_number := "5"
                   items := []
                   total := 200
                   timestamp := "12:00:00"
                   date := "2026-10-12"
                   status := "pending"
                   updated_at := none }]
      manualOrders := [{ id := "m1"
                         customer_name := "Walk-in Customer"
                         table_number := "Takeout"
                         items_description := "tea"
                         total := 5
                         notes := ""
                         timestamp := "2026-10-12 12:00:00"
                         date := "2026-10-12" }]
      dailyTotals := [{ date := "2026-10-11"
                        digital_orders := 3
                        manual_orders := 1
                        digital_revenue := 70
                        manual_revenue := 5
                        total_orders := 4
                        total_revenue := 75 },
                      { date := "2026-10-12"
                        digital_orders := 1
                        manual_orders := 0
                        digital_revenue := 200
                        manual_revenue := 0
                        total_orders := 1
                        total_revenue := 200 }]
      staffAlerts := [] } (by decide)).2.2.2.2
  rw [h]
  decide

/-- When some order carries the id, the status-setting loop succeeds and
the result contains an order with that id whose status is the new string
verbatim. -/
theorem setStatusFirst_of_mem (oid s : String) :
    ∀ orders : List Order, (∃ o ∈ orders, o.id = oid) →
      ∃ orders2, setStatusFirst oid s orders = some orders2 ∧
        ∃ o2 ∈ orders2, o2.id = oid ∧ o2.status = s := by
  intro orders hex
  induction orders with
  | nil => simp at hex
  | cons o os ih =>
    by_cases ho : o.id = oid
    · refine ⟨{ o with status := s } :: os, by simp [setStatusFirst, ho], ?_⟩
      exact ⟨{ o with status := s }, by simp, ho, rfl⟩
    · obtain ⟨o1, ho1, hid⟩ := hex
      rcases List.mem_cons.mp ho1 with rfl | hmem
      · exact absurd hid ho
      · obtain ⟨os2, h1, o2, h2, h3, h4⟩ := ih ⟨o1, hmem, hid⟩
        refine ⟨o :: os2, by simp [setStatusFirst, ho, h1], ?_⟩
        exact ⟨o2, by simp [h2], h3, h4⟩

/-- The dashboard variant of the loop: also stamps `updated_at`, same
status write. -/
theorem setStatusFirstNew_of_mem (oid s now : String) :
    ∀ orders : List Order, (∃ o ∈ orders, o.id = oid) →
      ∃ orders2, setStatusFirstNew oid s now orders = some orders2 ∧
        ∃ o2 ∈ orders2, o2.id = oid ∧ o2.status = s := by
  intro orders hex
  induction orders with
  | nil => simp at hex
  | cons o os ih =>
    by_cases ho : o.id = oid
    · refine ⟨{ o with status := s, updated_at := some now } :: os,
        by simp [setStatusFirstNew, ho], ?_⟩
      exact ⟨{ o with status := s, updated_at := some now }, by simp, ho, rfl⟩
    · obtain ⟨o1, ho1, hid⟩ := hex
      rcases List.mem_cons.mp ho1 with rfl | hmem
      · exact absurd hid ho
      · obtain ⟨os2, h1, o2, h2, h3, h4⟩ := ih ⟨o1, hmem, hid⟩
        refine ⟨o :: os2, by simp [setStatusFirstNew, ho, h1], ?_⟩
        exact ⟨o2, by simp [h2], h3, h4⟩

/-- Claim C7: for every existing order and every non-empty status string
— also outside pending/preparing/ready/completed/cancelled — both status
handlers accept the request regardless of the order's current status and
write the string verbatim; no transition table restricts the target. -/
theorem claim_c7_any_status_accepted (orders : List Order)
    (oid s now : String) (hoid : oid ≠ "") (hs : s ≠ "")
    (hex : ∃ o ∈ orders, o.id = oid) :
    (∃ orders2, update_order_status (some oid) (some s) orders
        = (.success (), orders2) ∧
      ∃ o2 ∈ orders2, o2.id = oid ∧ o2.status = s) ∧
    (∃ orders3, update_order_status_new oid (some s) now orders
        = (.success (), orders3) ∧
      ∃ o3 ∈ orders3, o3.id = oid ∧ o3.status = s) := by
  constructor
  · obtain ⟨orders2, h1, h2⟩ := setStatusFirst_of_mem oid s orders hex
    refine ⟨orders2, ?_, h2⟩
    simp only [update_order_status]
    rw [if_neg (by simp [hoid, hs]), h1]
  · obtain ⟨orders3, h1, h2⟩ := setStatusFirstNew_of_mem oid s now orders hex
    refine ⟨orders3, ?_, h2⟩
    obtain ⟨o1, ho1, _⟩ := hex
    cases orders with
    | nil => simp at ho1
    | cons o os =>
      simp only [update_order_status_new]
      rw [if_neg hs, h1]

/-- Witness for C7: a completed order accepts the non-standard status
string `archived` through both handlers. -/
theorem claim_c7_witness :
    (∃ orders2, update_order_status (some "o1") (some "archived")
        [{ id := "o1"
           customer_name := "Alice"
           table_number := "5"
           items := []
           total := 200
           timestamp := "12:00:00"
           date := "2026-10-12"
           status := "completed"
           updated_at := none }]
        = (.success (), orders2) ∧
      ∃ o2 ∈ orders2, o2.id = "o1" ∧ o2.status = "archived") ∧
    (∃ orders3, update_order_status_new "o1" (some "archived") "now"
        [{ id := "o1"
           customer_name := "Alice"
           table_number := "5"
           items := []
           total := 200
           timestamp := "12:00:00"
           date := "2026-10-12"
           status := "completed"
           updated_at := none }]
        = (.success (), orders3) ∧
      ∃ o3 ∈ orders3, o3.id = "o1" ∧ o3.status = "archived") :=
  claim_c7_any_status_accepted _ "o1" "archived" "now" (by decide) (by decide)
    ⟨{ id := "o1"
       customer_name := "Alice"
       table_number := "5"
       items := []
       total := 200
       timestamp := "12:00:00"
       date := "2026-10-12"
       status := "completed"
       updated_at := none }, by simp, rfl⟩

/-- The staff alert created by `call_staff` for table 5: the table is
stored under the key `table_number`, and no key `table` exists. -/
def alertA : Alert :=
  [("id", "a1"), ("table_number", "5"), ("customer_name", "Bob"),
    ("timestamp", "12:00:00"), ("type", "call_staff")]

/-- Claim C9 counterexample: dismissing an alert id that matches nothing
answers success (HTTP 200), not a 404 — `dismiss_alert` has no not-found
path at all. -/
theorem claim_c9_counterexample :
    dismiss_alert (some "zzz") [alertA] = (.success (), [alertA]) := by
  decide

/-- Claim C9 as amended: for an alert id matching no alert in the list,
`resolve_alert` answers 404 and leaves the list unchanged, while
`dismiss_alert` also leaves the list unchanged but answers success
(HTTP 200) — it never produces a 404. -/
theorem claim_c9_amended_unknown_id (alerts : List Alert) (aid : String)
    (haid : aid ≠ "")
    (h : ∀ a ∈ alerts, (dget a "id" == some aid) = false) :
    resolve_alert aid alerts = (.error 404 "Alert not found", alerts) ∧
    dismiss_alert (some aid) alerts = (.success (), alerts) := by
  constructor
  · have hrem : removeFirstAlert aid alerts = none := by
      induction alerts with
      | nil => rfl
      | cons a rest ih =>
        have ha := h a (by simp)
        simp only [removeFirstAlert, ha, Bool.false_eq_true, if_false]
        rw [ih (fun x hx => h x (by simp [hx]))]
        rfl
    simp [resolve_alert, hrem]
  · have hfil : alerts.filter (fun a => !(dget a "id" == some aid)) = alerts := by
      induction alerts with
      | nil => rfl
      | cons a rest ih =>
        have ha := h a (by simp)
        simp only [List.filter_cons, ha, Bool.not_false, if_pos trivial,
          List.cons.injEq, true_and]
        exact ih (fun x hx => h x (by simp [hx]))
    simp [dismiss_alert, haid, hfil]

/-- Witness for the amended C9 on a concrete alert list and unknown id. -/
theorem claim_c9_amended_witness :
    resolve_alert "zzz" [alertA] = (.error 404 "Alert not found", [alertA]) ∧
    dismiss_alert (some "zzz") [alertA] = (.success (), [alertA]) :=
  claim_c9_amended_unknown_id [alertA] "zzz" (by decide) (by decide)

/-- Claim C8 (code bug): the alert created by `call_staff` for table 5
survives both table-clean operations for table 5 — `clean_table` and
`clear_table_alerts` filter on the key `table`, which `call_staff` never
sets (it stores the table under `table_number`), so no alert is ever
removed by a table clean. -/
theorem claim_c8_clean_table_keeps_alert :
    (call_staff "a1" "12:00:00" "5" "Bob" []).2 = [alertA] ∧
    (clean_table "5"
        { orders := []
          manualOrders := []
          dailyTotals := []
          staffAlerts := [alertA] }).2.staffAlerts = [alertA] ∧
    clear_table_alerts "5" [alertA] = [alertA] := by
  refine ⟨?_, ?_, ?_⟩ <;> decide

/-- Claim C3: when the declared total differs from the computed sum of
price times quantity by more than 0.01, `place_order` answers a 400
error, and neither the orders nor the daily-totals collection changes;
conversely a declared total within 0.01 of the computed sum passes the
check, and with the other validations satisfied the order is persisted
and today's totals are updated. -/
theorem claim_c3_total_check (newId ts today : String)
    (req : PlaceOrderRequest) (st : AppState) (total : ℚ)
    (htot : req.total = some total) :
    (1 / 100 < |((req.items.map (fun i => i.price * i.quantity)).sum) - total| →
      ∃ msg, place_order newId ts today req st = (.error 400 msg, st)) ∧
    (req.customer_name ≠ "" → req.table_number ≠ "" → req.items ≠ [] →
      0 < total → (∀ i ∈ req.items, 0 < i.price ∧ 0 < i.quantity) →
      |((req.items.map (fun i => i.price * i.quantity)).sum) - total| ≤ 1 / 100 →
      place_order newId ts today req st =
        (.success newId,
          { st with
            orders := st.orders ++
              [{ id := newId
                 customer_name := req.customer_name
                 table_number := req.table_number
                 items := req.items
                 total := total
                 timestamp := ts
                 date := today
                 status := "pending"
                 updated_at := none }]
            dailyTotals :=
              update_daily_totals total "digital" today st.dailyTotals })) := by
  constructor
  · intro hmis
    by_cases h1 : req.customer_name = ""
    · exact ⟨"Customer name is required", by simp [place_order, h1]⟩
    by_cases h2 : req.table_number = ""
    · exact ⟨"Table number is required", by simp [place_order, h1, h2]⟩
    by_cases h3 : req.items = []
    · exact ⟨"Order items are required", by simp [place_order, h1, h2, h3]⟩
    by_cases h4 : total ≤ 0
    · exact ⟨"Valid total amount is required",
        by simp [place_order, h1, h2, h3, htot, h4]⟩
    by_cases h5 : req.items.any
        (fun i => decide (i.quantity ≤ 0) || decide (i.price ≤ 0))
    · exact ⟨"Invalid item quantity or price",
        by simp [place_order, h1, h2, h3, htot, h4, h5]⟩
    · refine ⟨"Order total mismatch", ?_⟩
      have hmis2 : (100 : ℚ)⁻¹ <
          |((req.items.map (fun i => i.price * i.quantity)).sum) - total| := by
        rwa [one_div] at hmis
      simp [place_order, h1, h2, h3, htot, h4, h5, hmis2]
  · intro h1 h2 h3 h4 h5 hle
    have h4x : ¬(total ≤ 0) := not_le.mpr h4
    have h5x : req.items.any
        (fun i => decide (i.quantity ≤ 0) || decide (i.price ≤ 0)) = false := by
      simp only [List.any_eq_false]
      intro i hi
      simp only [Bool.or_eq_true, decide_eq_true_eq, not_or]
      exact ⟨not_le.mpr (h5 i hi).2, not_le.mpr (h5 i hi).1⟩
    have hmisx : ¬((100 : ℚ)⁻¹ <
        |((req.items.map (fun i => i.price * i.quantity)).sum) - total|) := by
      rw [← one_div]
      exact not_lt.mpr hle
    simp [place_order, h1, h2, h3, htot, h4x, h5x, hmisx]

/-- The spec's mismatch example: one item computing to 100, declared
total 150. -/
def reqBad : PlaceOrderRequest :=
  { customer_name := "Alice"
    table_number := "5"
    items := [{ id := "x", name := "dish", price := 100, quantity := 1 }]
    total := some 150 }

/-- The spec's end-to-end example: one item at price 100 and quantity 2,
declared total 200. -/
def reqGood : PlaceOrderRequest :=
  { customer_name := "Alice"
    table_number := "5"
    items := [{ id := "x", name := "dish", price := 100, quantity := 2 }]
    total := some 200 }

/-- An empty starting state. -/
def stEmpty : AppState :=
  { orders := [], manualOrders := [], dailyTotals := [], staffAlerts := [] }

/-- Witness for C3: the mismatching request is rejected with 400 and no
state change; the matching request succeeds and persists the order. -/
theorem claim_c3_witness :
    (∃ msg, place_order "o1" "12:00:00" "2026-10-12" reqBad stEmpty
      = (.error 400 msg, stEmpty)) ∧
    place_order "o1" "12:00:00" "2026-10-12" reqGood stEmpty
      = (.success "o1",
          { stEmpty with
            orders := stEmpty.orders ++
              [{ id := "o1"
                 customer_name := reqGood.customer_name
                 table_number := reqGood.table_number
                 items := reqGood.items
                 total := 200
                 timestamp := "12:00:00"
                 date := "2026-10-12"
                 status := "pending"
                 updated_at := none }]
            dailyTotals :=
              update_daily_totals 200 "digital" "2026-10-12"
                stEmpty.dailyTotals }) := by
  constructor
  · exact (claim_c3_total_check "o1" "12:00:00" "2026-10-12" reqBad stEmpty
      150 rfl).1 (by norm_num [reqBad])
  · exact (claim_c3_total_check "o1" "12:00:00" "2026-10-12" reqGood stEmpty
      200 rfl).2 (by decide) (by decide) (by decide) (by norm_num)
      (by decide) (by norm_num [reqGood])

end GreenHeaven
